import Mathlib

/-!
Rugged tag collection (`rugged_tag_collection.c`)

A shallow embedding of the Ruby binding `Rugged::TagCollection`:
`tags[name]`, `tags.delete`, `tags.create`, `tags.each` and `tags.each_name`.

The binding marshals arguments, calls the repository engine (libgit2) and
converts the results.  The engine is not part of this file of the binding, so
the binding functions are embedded over an arbitrary `Engine`; every engine
call and every block call they make is recorded in a trace, so that theorems
can speak about which calls are made and in which order.  A concrete engine,
`specEngine`, follows the reference store described in the specification.

Conventions of the embedding:
* a name is identified with the C string `StringValueCStr` hands to the engine;
* the owner of a collection is a repository, so `rugged_check_repo` passes;
* engine calls return the C `int` error code together with their out-parameter;
* a Ruby exception (or any other non-local exit of a block) is an `.error`.
-/

namespace Rugged

/-! ## Data model -/

/-- Object identifier (`git_oid`). -/
abbrev git_oid := Nat

/-- Object types (`git_otype`). -/
inductive git_otype
  | Commit | Tree | Blob | Tag
  deriving DecidableEq, Repr

/-- A loaded object (`git_object *`): its id and type. -/
structure git_object where
  id : git_oid
  type : git_otype
  deriving DecidableEq, Repr

/-- A direct reference (`git_reference *`): a name and the id it points to. -/
structure git_reference where
  name : String
  target : git_oid
  deriving DecidableEq, Repr

/-- A signature (`git_signature *`). -/
structure git_signature where
  name : String
  email : String
  time : Nat
  deriving DecidableEq, Repr

/-- Engine error codes used by the binding (`git2/errors.h`). -/
def GIT_OK : Int := 0
def GIT_ERROR : Int := -1
def GIT_ENOTFOUND : Int := -3
def GIT_EEXISTS : Int := -4
def GIT_EINVALIDSPEC : Int := -12

/-- The Ruby values the binding receives and returns. -/
inductive VALUE
  | Qnil
  | Qtrue
  | Qfalse
  | fixnum (n : Int)
  | str (s : String)
  /-- A Hash holding a signature, as accepted for `:tagger`. -/
  | signature (s : git_signature)
  /-- A `Rugged::Object`. -/
  | object (id : git_oid)
  /-- The hex string of an object id (what `rugged_create_oid` builds). -/
  | oid (id : git_oid)
  /-- A `Rugged::Tag` built by `rugged_ref_new(rb_cRuggedTag, ...)`. -/
  | tag (r : git_reference)
  /-- The result of `to_enum(:each / :each_name, pattern)`. -/
  | enumerator (names_only : Bool) (pattern : VALUE)
  deriving DecidableEq, Repr

/-- Ruby exceptions and other non-local exits. -/
inductive RubyExc
  /-- `TypeError`, raised by `Check_Type` and `rugged_parse_bool`. -/
  | TypeError
  /-- The exception `rugged_exception_check` raises for an engine error code. -/
  | rugged (code : Int)
  /-- Anything a block raises (or a `break`), identified by a tag. -/
  | user (tag : Nat)
  deriving DecidableEq, Repr

deriving instance DecidableEq for Except

/-- The keyword hash of `tags.create`, seen through the two `rb_hash_aref`
calls the binding makes on it (`Qnil` for a missing key). -/
structure AnnotationHash where
  tagger : VALUE
  message : VALUE
  deriving DecidableEq, Repr

/-- One observable step of a binding function: an engine call or a block call. -/
inductive Event
  | reference_lookup (name : String)
  | tag_delete (name : String)
  | tag_create_lightweight (name : String) (target : git_object) (force : Int)
  | tag_create (name : String) (target : git_object) (tagger : git_signature)
      (message : String) (force : Int)
  | tag_list_match (pattern : String)
  | yield (v : VALUE)
  deriving DecidableEq, Repr

/-- The repository engine and the helpers of the binding that live in other
files, over a world `W` (the repository and whatever else blocks can change).
An engine call returns its `int` result and its out-parameter. -/
structure Engine (W : Type) where
  git_reference_lookup : W → String → Int × git_reference
  git_tag_delete : W → String → Int × W
  git_tag_create_lightweight : W → String → git_object → Int → Int × git_oid × W
  git_tag_create :
    W → String → git_object → git_signature → String → Int → Int × git_oid × W
  git_tag_list_match : W → String → Int × List String
  rugged_object_get : W → VALUE → Except RubyExc git_object
  rugged_signature_get : W → VALUE → Except RubyExc git_signature

/-- Interpreter state: the world and the trace of events so far. -/
structure St (W : Type) where
  world : W
  log : List Event
  deriving DecidableEq

/-- Record an event. -/
def St.emit {W : Type} (s : St W) (e : Event) : St W :=
  { s with log := s.log ++ [e] }

/-- A block: receives the yielded value, may change the world, and either
returns normally (`none`) or exits non-locally. -/
abbrev Block (W : Type) := VALUE → W → Option RubyExc × W

/-! ## Helpers of the binding -/

/-- `Check_Type(v, T_STRING)` followed by `StringValueCStr(v)`. -/
def Check_Type_String : VALUE → Except RubyExc String
  | .str s => .ok s
  | _ => .error .TypeError

/-- Modelled from the spec: `rugged_exception_check` (rugged.h) raises when the
engine reports an error, i.e. a negative code; the error kind propagates to
the caller unchanged (§7). -/
def rugged_exception_check (errorcode : Int) : Except RubyExc Unit :=
  if errorcode < 0 then .error (.rugged errorcode) else .ok ()

/-- Modelled from the spec: `rugged_parse_bool` (rugged.h): `force` is a
boolean (§6), `true` giving 1 and `false` giving 0; any other value is a
`TypeError`. -/
def rugged_parse_bool : VALUE → Except RubyExc Int
  | .Qtrue => .ok 1
  | .Qfalse => .ok 0
  | _ => .error .TypeError

/-- `rugged_ref_new(rb_cRuggedTag, rb_repo, tag)`. -/
def rugged_ref_new (tag : git_reference) : VALUE := .tag tag

/-! ## `tags[name]` -/

/-- The common tail of `rb_git_tag_collection_aref`:
`rugged_exception_check(error); return rugged_ref_new(...)`. -/
def aref_finish {W : Type} (error : Int) (tag : git_reference) (s : St W) :
    Except RubyExc VALUE × St W :=
  match rugged_exception_check error with
  | .error e => (.error e, s)
  | .ok _ => (.ok (rugged_ref_new tag), s)

/-- `rb_git_tag_collection_aref`. -/
def rb_git_tag_collection_aref {W : Type} (E : Engine W) (rb_name : VALUE) (s : St W) :
    Except RubyExc VALUE × St W :=
  match Check_Type_String rb_name with
  | .error e => (.error e, s)
  | .ok name =>
    let r := E.git_reference_lookup s.world name
    let s := s.emit (.reference_lookup name)
    if r.1 = GIT_ENOTFOUND ∨ r.1 = GIT_EINVALIDSPEC then
      let canonical_ref := "refs/tags/" ++ name
      let r := E.git_reference_lookup s.world canonical_ref
      let s := s.emit (.reference_lookup canonical_ref)
      if r.1 = GIT_ENOTFOUND then (.ok .Qnil, s)
      else aref_finish r.1 r.2 s
    else aref_finish r.1 r.2 s

/-! ## `tags.delete` -/

/-- `rb_git_tag_collection_delete`. -/
def rb_git_tag_collection_delete {W : Type} (E : Engine W) (rb_name : VALUE) (s : St W) :
    Except RubyExc VALUE × St W :=
  match Check_Type_String rb_name with
  | .error e => (.error e, s)
  | .ok name =>
    let r := E.git_tag_delete s.world name
    let s : St W := { world := r.2, log := s.log ++ [.tag_delete name] }
    match rugged_exception_check r.1 with
    | .error e => (.error e, s)
    | .ok _ => (.ok .Qnil, s)

/-! ## `tags.create` -/

/-- The `force` argument: `if (!NIL_P(rb_force)) force = rugged_parse_bool(rb_force)`. -/
def parse_force : VALUE → Except RubyExc Int
  | .Qnil => .ok 0
  | v => rugged_parse_bool v

/-- `rb_git_tag_collection_create`, with `rb_scan_args(argc, argv, "21:", ...)`
already applied: `rb_force` is `Qnil` when omitted and `rb_annotation_hash` is
`none` when no keyword hash is given. -/
def rb_git_tag_collection_create {W : Type} (E : Engine W) (rb_name rb_target rb_force : VALUE)
    (rb_annotation_hash : Option AnnotationHash) (s : St W) : Except RubyExc VALUE × St W :=
  match Check_Type_String rb_name with
  | .error e => (.error e, s)
  | .ok name =>
    match parse_force rb_force with
    | .error e => (.error e, s)
    | .ok force =>
      match E.rugged_object_get s.world rb_target with
      | .error e => (.error e, s)
      | .ok target =>
        match rb_annotation_hash with
        | none =>
          let r := E.git_tag_create_lightweight s.world name target force
          let s : St W :=
            { world := r.2.2, log := s.log ++ [.tag_create_lightweight name target force] }
          match rugged_exception_check r.1 with
          | .error e => (.error e, s)
          | .ok _ => rb_git_tag_collection_aref E rb_name s
        | some ann =>
          match E.rugged_signature_get s.world ann.tagger with
          | .error e => (.error e, s)
          | .ok tagger =>
            match Check_Type_String ann.message with
            | .error e => (.error e, s)
            | .ok message =>
              let r := E.git_tag_create s.world name target tagger message force
              let s : St W :=
                { world := r.2.2,
                  log := s.log ++ [.tag_create name target tagger message force] }
              match rugged_exception_check r.1 with
              | .error e => (.error e, s)
              | .ok _ => rb_git_tag_collection_aref E rb_name s

/-! ## `tags.each` and `tags.each_name` -/

/-- `rb_protect(rb_yield, v, &exception)`: call the block on `v`; a non-local
exit of the block is caught and stored in `exception`. -/
def rb_protect_yield {W : Type} (block : Block W) (v : VALUE) (s : St W) :
    Option RubyExc × St W :=
  let r := block v s.world
  (r.1, { world := r.2, log := s.log ++ [.yield v] })

/-- The loop of `each_tag` for `tag_names_only != 0`:
`for (i = 0; !exception && i < tags.count; ++i) rb_protect(rb_yield, name_i, &exception)`.
The list holds `tags.strings[i..]`. -/
def each_name_loop {W : Type} (block : Block W) :
    List String → Option RubyExc → St W → Option RubyExc × St W
  | [], exception, s => (exception, s)
  | n :: rest, exception, s =>
    match exception with
    | some e => (some e, s)
    | none =>
      let r := rb_protect_yield block (.str n) s
      each_name_loop block rest r.1 r.2

/-- The loop of `each_tag` for `tag_names_only == 0`.  The argument
`rb_git_tag_collection_aref(self, name_i)` is evaluated outside `rb_protect`,
so an exception it raises leaves the loop at once (`.error`); a non-local exit
of the block is stored in `exception` and ends the loop through its test. -/
def each_loop {W : Type} (E : Engine W) (block : Block W) :
    List String → Option RubyExc → St W → Except RubyExc (Option RubyExc) × St W
  | [], exception, s => (.ok exception, s)
  | n :: rest, exception, s =>
    match exception with
    | some e => (.ok (some e), s)
    | none =>
      match rb_git_tag_collection_aref E (.str n) s with
      | (.error e, s1) => (.error e, s1)
      | (.ok v, s1) =>
        let r := rb_protect_yield block v s1
        each_loop E block rest r.1 r.2

/-- The pattern argument of `each_tag`: `NULL` for `nil`, else a String. -/
def pattern_arg : VALUE → Except RubyExc (Option String)
  | .Qnil => .ok none
  | v => (Check_Type_String v).map some

/-- `each_tag`, with `rb_scan_args(argc, argv, "01", &rb_pattern)` already
applied (`rb_pattern` is `Qnil` when omitted); `block` is `none` when no block
is given. -/
def each_tag {W : Type} (E : Engine W) (rb_pattern : VALUE) (block : Option (Block W))
    (tag_names_only : Bool) (s : St W) : Except RubyExc VALUE × St W :=
  match block with
  | none => (.ok (.enumerator tag_names_only rb_pattern), s)
  | some block =>
    match pattern_arg rb_pattern with
    | .error e => (.error e, s)
    | .ok pattern =>
      let r := E.git_tag_list_match s.world (pattern.getD "")
      let s := s.emit (.tag_list_match (pattern.getD ""))
      match rugged_exception_check r.1 with
      | .error e => (.error e, s)
      | .ok _ =>
        if tag_names_only then
          match each_name_loop block r.2 none s with
          | (some e, s1) => (.error e, s1)
          | (none, s1) => (.ok .Qnil, s1)
        else
          match each_loop E block r.2 none s with
          | (.error e, s1) => (.error e, s1)
          | (.ok (some e), s1) => (.error e, s1)
          | (.ok none, s1) => (.ok .Qnil, s1)

/-- `rb_git_tag_collection_each_name`. -/
def rb_git_tag_collection_each_name {W : Type} (E : Engine W) (rb_pattern : VALUE)
    (block : Option (Block W)) (s : St W) : Except RubyExc VALUE × St W :=
  each_tag E rb_pattern block true s

/-- An annotated tag object (spec §3). -/
structure TagObject where
  target : git_oid
  target_type : git_otype
  tagger : git_signature
  message : String
  deriving DecidableEq, Repr

/-- What the object database stores under an id. -/
inductive Stored
  | plain (type : git_otype)
  | tag (t : TagObject)
  deriving DecidableEq, Repr

/-- The type of a stored object. -/
def Stored.type : Stored → git_otype
  | .plain t => t
  | .tag _ => .Tag

/-- A repository: the reference store, the object database and the default
identity of the configuration. -/
structure Repo where
  refs : List (String × git_oid)
  odb : List (git_oid × Stored)
  identity : Option git_signature
  deriving DecidableEq, Repr

/-- The canonical tag namespace. -/
def tag_namespace : String := "refs/tags/"

/-- Characters the reference-naming grammar disallows. -/
def disallowed_char (c : Char) : Bool :=
  c == ' ' || c == '~' || c == '^' || c == ':' || c == '?' || c == '*' || c == '['

/-- Modelled from the spec: a name is malformed when it is empty or contains a
character the reference-naming grammar disallows (§4.3 step 5); the grammar
itself belongs to the engine, the characters are those of git. -/
def valid_name (name : String) : Bool :=
  !name.data.isEmpty && name.data.all (fun c => !disallowed_char c)

/-- Modelled from the spec: Reference Store `lookup(name)` (§4.1), an
exact-name lookup without normalization; a malformed name is reported as
`InvalidName` (§7), which the binding tests for as `GIT_EINVALIDSPEC`. -/
def store_lookup (w : Repo) (name : String) : Int × git_reference :=
  if valid_name name then
    match w.refs.lookup name with
    | some id => (GIT_OK, ⟨name, id⟩)
    | none => (GIT_ENOTFOUND, ⟨name, 0⟩)
  else (GIT_EINVALIDSPEC, ⟨name, 0⟩)

/-- Modelled from the spec: Reference Store `create(name, target, force)`
(§4.1) on the list of references: the new entry replaces any old one. -/
def store_write (refs : List (String × git_oid)) (name : String) (id : git_oid) :
    List (String × git_oid) :=
  (name, id) :: refs.filter (fun e => e.1 != name)

/-- Modelled from the spec: lightweight tag creation (§4.3 step 2): fails with
`InvalidName` on a malformed name, with `AlreadyExists` on a collision unless
`force` is set, and otherwise writes `refs/tags/<name>` at the target. -/
def spec_tag_create_lightweight (w : Repo) (name : String) (target : git_object)
    (force : Int) : Int × git_oid × Repo :=
  if !valid_name name then (GIT_EINVALIDSPEC, 0, w)
  else if (w.refs.lookup (tag_namespace ++ name)).isSome && force == 0 then (GIT_EEXISTS, 0, w)
  else (GIT_OK, target.id,
    { w with refs := store_write w.refs (tag_namespace ++ name) target.id })

/-- Modelled from the spec: annotated tag creation (§4.3 step 3): builds and
stores a `TagObject` for the target under its own id (`hash`), then writes
`refs/tags/<name>` at that id, with the same `force` semantics; a failing call
changes nothing (§5). -/
def spec_tag_create (hash : TagObject → git_oid) (w : Repo) (name : String)
    (target : git_object) (tagger : git_signature) (message : String) (force : Int) :
    Int × git_oid × Repo :=
  if !valid_name name then (GIT_EINVALIDSPEC, 0, w)
  else if (w.refs.lookup (tag_namespace ++ name)).isSome && force == 0 then (GIT_EEXISTS, 0, w)
  else
    let t : TagObject := ⟨target.id, target.type, tagger, message⟩
    (GIT_OK, hash t,
      { w with
        odb := (hash t, .tag t) :: w.odb
        refs := store_write w.refs (tag_namespace ++ name) (hash t) })

/-- Modelled from the spec: tag deletion (§4.1 `delete`, §4.3): removes the
reference `refs/tags/<name>`, `NotFound` when there is none. -/
def spec_tag_delete (w : Repo) (name : String) : Int × Repo :=
  if (w.refs.lookup (tag_namespace ++ name)).isSome then
    (GIT_OK, { w with refs := w.refs.filter (fun e => e.1 != tag_namespace ++ name) })
  else (GIT_ENOTFOUND, w)

/-- The short name of a reference under the tag namespace. -/
def short_name (full : String) : Option String :=
  if tag_namespace.data.isPrefixOf full.data then
    some ⟨full.data.drop tag_namespace.data.length⟩
  else none

/-- Modelled from the spec: enumeration (§4.1 `list`, §4.3 `enumerate`): the
short names of the references under the tag namespace, in lexical order,
filtered by the glob when a pattern is supplied; the empty pattern stands for
no pattern.  Glob matching is a collaborator (`glob`). -/
def spec_tag_list_match (glob : String → String → Bool) (w : Repo) (pattern : String) :
    Int × List String :=
  let names := (w.refs.filterMap (fun e => short_name e.1)).insertionSort
    (fun a b => ¬ b.data < a.data)
  (GIT_OK, names.filter (fun n => pattern.data.isEmpty || glob pattern n))

/-- Modelled from the spec: Object Resolver `resolve(spec, Any)` (§4.2) for
the targets the binding passes on: a `Rugged::Object`, or a String naming a
reference; `NotFound` when nothing is stored there. -/
def spec_object_get (w : Repo) : VALUE → Except RubyExc git_object
  | .object id =>
    match w.odb.lookup id with
    | some o => .ok ⟨id, o.type⟩
    | none => .error (.rugged GIT_ENOTFOUND)
  | .str name =>
    match w.refs.lookup name with
    | some id =>
      match w.odb.lookup id with
      | some o => .ok ⟨id, o.type⟩
      | none => .error (.rugged GIT_ENOTFOUND)
    | none => .error (.rugged GIT_ENOTFOUND)
  | _ => .error .TypeError

/-- Modelled from the spec: the tagger of an annotation (§4.3 step 3): the
signature given, or the default identity of the configuration when omitted. -/
def spec_signature_get (w : Repo) : VALUE → Except RubyExc git_signature
  | .Qnil =>
    match w.identity with
    | some sig => .ok sig
    | none => .error (.rugged GIT_ENOTFOUND)
  | .signature sig => .ok sig
  | _ => .error .TypeError

/-- Modelled from the spec: the repository engine (reference store, object
resolver, tag creation, deletion and listing of §4.1 to §4.3), with the hash
of tag objects and glob matching as collaborators. -/
def specEngine (hash : TagObject → git_oid) (glob : String → String → Bool) :
    Engine Repo where
  git_reference_lookup := store_lookup
  git_tag_delete := spec_tag_delete
  git_tag_create_lightweight := spec_tag_create_lightweight
  git_tag_create := spec_tag_create hash
  git_tag_list_match := spec_tag_list_match glob
  rugged_object_get := spec_object_get
  rugged_signature_get := spec_signature_get

/-! ## Concrete repositories and collaborators used in examples -/

/-- A hash for the examples: the target id plus one hundred. -/
def exHash (t : TagObject) : git_oid := t.target + 100

/-- A glob for the examples: exact match. -/
def exGlob (pattern name : String) : Bool := pattern == name

/-- The engine of the examples. -/
def exEngine : Engine Repo := specEngine exHash exGlob

/-- A repository with two commits, a branch, `HEAD` at commit 1, tags `v1` at
commit 1 and `v3` at commit 2, and a tag whose short name is `refs/tags/v9` at
commit 2. -/
def exRepo : Repo where
  refs := [("HEAD", 1), ("refs/heads/master", 1), ("refs/tags/v3", 2), ("refs/tags/v1", 1),
    ("refs/tags/refs/tags/v9", 2)]
  odb := [(1, .plain .Commit), (2, .plain .Commit)]
  identity := some ⟨"A U Thor", "author@example.com", 0⟩

/-- The example repository with one more tag, whose short name
`refs/heads/master` is also the name of the branch. -/
def exShadowRepo : Repo :=
  { exRepo with refs := ("refs/tags/refs/heads/master", 1) :: exRepo.refs }

/-- A block that does nothing. -/
def exQuietBlock : Block Repo := fun _ w => (none, w)

/-- The start state on `exRepo`. -/
def exSt : St Repo := ⟨exRepo, []⟩

end Rugged

namespace Rugged

/-! ## Lemmas on `tags[name]` -/

theorem aref_of_raw_other {W : Type} (E : Engine W) (name : String) (s : St W)
    (h1 : (E.git_reference_lookup s.world name).1 ≠ GIT_ENOTFOUND)
    (h2 : (E.git_reference_lookup s.world name).1 ≠ GIT_EINVALIDSPEC) :
    rb_git_tag_collection_aref E (.str name) s =
      aref_finish (E.git_reference_lookup s.world name).1
        (E.git_reference_lookup s.world name).2 (s.emit (.reference_lookup name)) := by
  simp [rb_git_tag_collection_aref, Check_Type_String, h1, h2]

theorem aref_of_raw_missing {W : Type} (E : Engine W) (name : String) (s : St W)
    (h : (E.git_reference_lookup s.world name).1 = GIT_ENOTFOUND ∨
      (E.git_reference_lookup s.world name).1 = GIT_EINVALIDSPEC) :
    rb_git_tag_collection_aref E (.str name) s =
      if (E.git_reference_lookup s.world ("refs/tags/" ++ name)).1 = GIT_ENOTFOUND then
        (.ok .Qnil,
          (s.emit (.reference_lookup name)).emit (.reference_lookup ("refs/tags/" ++ name)))
      else
        aref_finish (E.git_reference_lookup s.world ("refs/tags/" ++ name)).1
          (E.git_reference_lookup s.world ("refs/tags/" ++ name)).2
          ((s.emit (.reference_lookup name)).emit (.reference_lookup ("refs/tags/" ++ name))) := by
  simp [rb_git_tag_collection_aref, Check_Type_String, h, St.emit]

theorem aref_finish_ok {W : Type} (tag : git_reference) (s : St W) :
    aref_finish GIT_OK tag s = (.ok (.tag tag), s) := by
  simp [aref_finish, rugged_exception_check, GIT_OK, rugged_ref_new]

theorem aref_finish_world {W : Type} (error : Int) (tag : git_reference) (s : St W) :
    (aref_finish error tag s).2 = s := by
  unfold aref_finish
  split <;> rfl

theorem aref_world {W : Type} (E : Engine W) (rb_name : VALUE) (s : St W) :
    (rb_git_tag_collection_aref E rb_name s).2.world = s.world := by
  unfold rb_git_tag_collection_aref
  split
  · rfl
  · simp only []
    split
    · split
      · rfl
      · rw [aref_finish_world]; rfl
    · rw [aref_finish_world]; rfl

theorem aref_log {W : Type} (E : Engine W) (name : String) (s : St W) :
    (rb_git_tag_collection_aref E (.str name) s).2.log = s.log ++ [.reference_lookup name] ∨
    (rb_git_tag_collection_aref E (.str name) s).2.log =
      s.log ++ [.reference_lookup name, .reference_lookup ("refs/tags/" ++ name)] := by
  by_cases h : (E.git_reference_lookup s.world name).1 = GIT_ENOTFOUND ∨
      (E.git_reference_lookup s.world name).1 = GIT_EINVALIDSPEC
  · rw [aref_of_raw_missing E name s h]
    right
    split
    · simp [St.emit]
    · rw [aref_finish_world]; simp [St.emit]
  · have h1 : (E.git_reference_lookup s.world name).1 ≠ GIT_ENOTFOUND := fun h1 => h (Or.inl h1)
    have h2 : (E.git_reference_lookup s.world name).1 ≠ GIT_EINVALIDSPEC :=
      fun h2 => h (Or.inr h2)
    rw [aref_of_raw_other E name s h1 h2, aref_finish_world]
    left; rfl

/-! ## `tags[name]`: the two lookups -/

/-- C2: `tags[name]` first looks up the raw name; when that lookup succeeds its
reference is returned and no second lookup is made; when the raw lookup fails
as not-found or as an invalid name, a second lookup is made, under exactly
`"refs/tags/" ++ name`, and when that succeeds its reference is returned (and
`nil` when it reports not-found); a second lookup is made only in that case:
for any other result of the raw lookup the trace holds the raw lookup alone.
This holds for every name, in particular for every name that does not begin
with `"refs/tags/"`. -/
theorem C2_aref_raw_then_canonical {W : Type} (E : Engine W) (name : String) (s : St W) :
    ((rb_git_tag_collection_aref E (.str name) s).2.log = s.log ++ [.reference_lookup name] ∨
      (rb_git_tag_collection_aref E (.str name) s).2.log =
        s.log ++ [.reference_lookup name, .reference_lookup ("refs/tags/" ++ name)]) ∧
    ((E.git_reference_lookup s.world name).1 = GIT_OK →
      rb_git_tag_collection_aref E (.str name) s =
        (.ok (.tag (E.git_reference_lookup s.world name).2),
          ⟨s.world, s.log ++ [.reference_lookup name]⟩)) ∧
    ((rb_git_tag_collection_aref E (.str name) s).2.log =
        s.log ++ [.reference_lookup name, .reference_lookup ("refs/tags/" ++ name)] →
      ((E.git_reference_lookup s.world name).1 = GIT_ENOTFOUND ∨
        (E.git_reference_lookup s.world name).1 = GIT_EINVALIDSPEC) ∧
      ((E.git_reference_lookup s.world ("refs/tags/" ++ name)).1 = GIT_OK →
        (rb_git_tag_collection_aref E (.str name) s).1 =
          .ok (.tag (E.git_reference_lookup s.world ("refs/tags/" ++ name)).2))) ∧
    ((E.git_reference_lookup s.world name).1 = GIT_ENOTFOUND ∨
        (E.git_reference_lookup s.world name).1 = GIT_EINVALIDSPEC →
      (rb_git_tag_collection_aref E (.str name) s).2 =
        ⟨s.world,
          s.log ++ [.reference_lookup name, .reference_lookup ("refs/tags/" ++ name)]⟩ ∧
      ((E.git_reference_lookup s.world ("refs/tags/" ++ name)).1 = GIT_OK →
        (rb_git_tag_collection_aref E (.str name) s).1 =
          .ok (.tag (E.git_reference_lookup s.world ("refs/tags/" ++ name)).2)) ∧
      ((E.git_reference_lookup s.world ("refs/tags/" ++ name)).1 = GIT_ENOTFOUND →
        (rb_git_tag_collection_aref E (.str name) s).1 = .ok .Qnil)) ∧
    ((E.git_reference_lookup s.world name).1 ≠ GIT_ENOTFOUND →
      (E.git_reference_lookup s.world name).1 ≠ GIT_EINVALIDSPEC →
      (rb_git_tag_collection_aref E (.str name) s).2 =
        ⟨s.world, s.log ++ [.reference_lookup name]⟩) := by
  have hretry : (E.git_reference_lookup s.world name).1 = GIT_ENOTFOUND ∨
      (E.git_reference_lookup s.world name).1 = GIT_EINVALIDSPEC →
      (rb_git_tag_collection_aref E (.str name) s).2 =
        ⟨s.world,
          s.log ++ [.reference_lookup name, .reference_lookup ("refs/tags/" ++ name)]⟩ ∧
      ((E.git_reference_lookup s.world ("refs/tags/" ++ name)).1 = GIT_OK →
        (rb_git_tag_collection_aref E (.str name) s).1 =
          .ok (.tag (E.git_reference_lookup s.world ("refs/tags/" ++ name)).2)) ∧
      ((E.git_reference_lookup s.world ("refs/tags/" ++ name)).1 = GIT_ENOTFOUND →
        (rb_git_tag_collection_aref E (.str name) s).1 = .ok .Qnil) := by
    intro h
    rw [aref_of_raw_missing E name s h]
    refine ⟨?_, fun h2 => ?_, fun h2 => ?_⟩
    · split
      · simp [St.emit]
      · rw [aref_finish_world]; simp [St.emit]
    · have : (E.git_reference_lookup s.world ("refs/tags/" ++ name)).1 ≠ GIT_ENOTFOUND := by
        rw [h2]; decide
      rw [if_neg this, h2, aref_finish_ok]
    · rw [if_pos h2]
  have hsingle : (E.git_reference_lookup s.world name).1 ≠ GIT_ENOTFOUND →
      (E.git_reference_lookup s.world name).1 ≠ GIT_EINVALIDSPEC →
      (rb_git_tag_collection_aref E (.str name) s).2 =
        ⟨s.world, s.log ++ [.reference_lookup name]⟩ := by
    intro h1 h2
    rw [aref_of_raw_other E name s h1 h2, aref_finish_world]
    rfl
  refine ⟨?_, ?_, ?_, hretry, hsingle⟩
  · by_cases h : (E.git_reference_lookup s.world name).1 = GIT_ENOTFOUND ∨
        (E.git_reference_lookup s.world name).1 = GIT_EINVALIDSPEC
    · exact Or.inr (by rw [(hretry h).1])
    · exact Or.inl (by rw [hsingle (fun h1 => h (Or.inl h1)) (fun h2 => h (Or.inr h2))])
  · intro h0
    have h1 : (E.git_reference_lookup s.world name).1 ≠ GIT_ENOTFOUND := by rw [h0]; decide
    have h2 : (E.git_reference_lookup s.world name).1 ≠ GIT_EINVALIDSPEC := by rw [h0]; decide
    rw [aref_of_raw_other E name s h1 h2, h0, aref_finish_ok]; rfl
  · intro hlog
    by_cases h : (E.git_reference_lookup s.world name).1 = GIT_ENOTFOUND ∨
        (E.git_reference_lookup s.world name).1 = GIT_EINVALIDSPEC
    · exact ⟨h, (hretry h).2.1⟩
    · rw [hsingle (fun h1 => h (Or.inl h1)) (fun h2 => h (Or.inr h2))] at hlog
      simp at hlog

/-- C2, on the example repository: for `tags["v1"]` the raw lookup reports
not-found, the second lookup is made under `refs/tags/v1` and its reference
is returned; for `tags["v 1"]` the raw lookup reports an invalid name and the
second lookup is made under `refs/tags/v 1` all the same; for `tags["HEAD"]`
the raw lookup succeeds and is the only one. -/
theorem C2_aref_raw_then_canonical_witness :
    ((rb_git_tag_collection_aref exEngine (.str "v1") exSt).2 =
        ⟨exSt.world,
          exSt.log ++ [.reference_lookup "v1", .reference_lookup ("refs/tags/" ++ "v1")]⟩ ∧
      (rb_git_tag_collection_aref exEngine (.str "v1") exSt).1 =
        .ok (.tag (exEngine.git_reference_lookup exSt.world ("refs/tags/" ++ "v1")).2)) ∧
    (exEngine.git_reference_lookup exSt.world "v 1").1 = GIT_EINVALIDSPEC ∧
    (rb_git_tag_collection_aref exEngine (.str "v 1") exSt).2 =
      ⟨exSt.world,
        exSt.log ++ [.reference_lookup "v 1", .reference_lookup ("refs/tags/" ++ "v 1")]⟩ ∧
    rb_git_tag_collection_aref exEngine (.str "HEAD") exSt =
      (.ok (.tag (exEngine.git_reference_lookup exSt.world "HEAD").2),
        ⟨exSt.world, exSt.log ++ [.reference_lookup "HEAD"]⟩) :=
  ⟨⟨((C2_aref_raw_then_canonical exEngine "v1" exSt).2.2.2.1 (by decide)).1,
      ((C2_aref_raw_then_canonical exEngine "v1" exSt).2.2.2.1 (by decide)).2.1 (by decide)⟩,
    by decide,
    ((C2_aref_raw_then_canonical exEngine "v 1" exSt).2.2.2.1 (by decide)).1,
    (C2_aref_raw_then_canonical exEngine "HEAD" exSt).2.1 (by decide)⟩

/-- C3, refuted as stated: on the example repository the lookups of `v1~` and
of `refs/tags/v1~` both report an invalid reference name, and `tags["v1~"]`
raises that error instead of returning `nil`. -/
theorem C3_aref_invalid_name_raises :
    (exEngine.git_reference_lookup exRepo "v1~").1 = GIT_EINVALIDSPEC ∧
    (exEngine.git_reference_lookup exRepo ("refs/tags/" ++ "v1~")).1 = GIT_EINVALIDSPEC ∧
    (rb_git_tag_collection_aref exEngine (.str "v1~") exSt).1 =
      .error (.rugged GIT_EINVALIDSPEC) := by
  decide

/-- C3, amended: when the lookup of `name` fails as not-found or as an invalid
name and the lookup of `"refs/tags/" ++ name` reports not-found, `tags[name]`
returns `nil` and raises nothing; when the second lookup reports any other
error (such as an invalid name), that error is raised. -/
theorem C3_aref_absent {W : Type} (E : Engine W) (name : String) (s : St W)
    (h : (E.git_reference_lookup s.world name).1 = GIT_ENOTFOUND ∨
      (E.git_reference_lookup s.world name).1 = GIT_EINVALIDSPEC) :
    ((E.git_reference_lookup s.world ("refs/tags/" ++ name)).1 = GIT_ENOTFOUND →
      (rb_git_tag_collection_aref E (.str name) s).1 = .ok .Qnil) ∧
    ((E.git_reference_lookup s.world ("refs/tags/" ++ name)).1 ≠ GIT_ENOTFOUND →
      (E.git_reference_lookup s.world ("refs/tags/" ++ name)).1 < 0 →
      (rb_git_tag_collection_aref E (.str name) s).1 =
        .error (.rugged (E.git_reference_lookup s.world ("refs/tags/" ++ name)).1)) := by
  rw [aref_of_raw_missing E name s h]
  refine ⟨fun h2 => ?_, fun h2 hneg => ?_⟩
  · rw [if_pos h2]
  · rw [if_neg h2]
    simp [aref_finish, rugged_exception_check, hneg]

/-- C3, amended, at `tags["v2"]` on the example repository: neither form
resolves and `nil` is returned. -/
theorem C3_aref_absent_witness :
    ((exEngine.git_reference_lookup exSt.world "v2").1 = GIT_ENOTFOUND ∨
      (exEngine.git_reference_lookup exSt.world "v2").1 = GIT_EINVALIDSPEC) ∧
    (rb_git_tag_collection_aref exEngine (.str "v2") exSt).1 = .ok .Qnil :=
  ⟨by decide, (C3_aref_absent exEngine "v2" exSt (by decide)).1 (by decide)⟩

/-- C8, refuted as stated: `refs/tags/v9` begins with the canonical prefix and
no reference of exactly that name exists, yet `tags["refs/tags/v9"]` looks up
`refs/tags/refs/tags/v9` and returns that reference. -/
theorem C8_aref_canonical_name_retried :
    (exEngine.git_reference_lookup exRepo ("refs/tags/" ++ "v9")).1 = GIT_ENOTFOUND ∧
    rb_git_tag_collection_aref exEngine (.str ("refs/tags/" ++ "v9")) exSt =
      (.ok (.tag ⟨"refs/tags/refs/tags/v9", 2⟩),
        ⟨exRepo, [.reference_lookup "refs/tags/v9",
          .reference_lookup "refs/tags/refs/tags/v9"]⟩) := by
  decide

/-- C8, amended: for a name that begins with `"refs/tags/"`, `tags[name]` looks
up the name itself first; when that lookup succeeds its reference is returned
and `"refs/tags/" ++ name` is not looked up; when it reports not-found or an
invalid name, `"refs/tags/" ++ name` is looked up as for any other name, and
the result is `nil` when that is not found and its reference when it is. -/
theorem C8_aref_canonical_name {W : Type} (E : Engine W) (rest : String) (s : St W) :
    ((E.git_reference_lookup s.world ("refs/tags/" ++ rest)).1 = GIT_OK →
      rb_git_tag_collection_aref E (.str ("refs/tags/" ++ rest)) s =
        (.ok (.tag (E.git_reference_lookup s.world ("refs/tags/" ++ rest)).2),
          ⟨s.world, s.log ++ [.reference_lookup ("refs/tags/" ++ rest)]⟩)) ∧
    ((E.git_reference_lookup s.world ("refs/tags/" ++ rest)).1 = GIT_ENOTFOUND ∨
        (E.git_reference_lookup s.world ("refs/tags/" ++ rest)).1 = GIT_EINVALIDSPEC →
      (rb_git_tag_collection_aref E (.str ("refs/tags/" ++ rest)) s).2.log =
        s.log ++ [.reference_lookup ("refs/tags/" ++ rest),
          .reference_lookup ("refs/tags/" ++ ("refs/tags/" ++ rest))] ∧
      ((E.git_reference_lookup s.world ("refs/tags/" ++ ("refs/tags/" ++ rest))).1 =
          GIT_ENOTFOUND →
        (rb_git_tag_collection_aref E (.str ("refs/tags/" ++ rest)) s).1 = .ok .Qnil) ∧
      ((E.git_reference_lookup s.world ("refs/tags/" ++ ("refs/tags/" ++ rest))).1 = GIT_OK →
        (rb_git_tag_collection_aref E (.str ("refs/tags/" ++ rest)) s).1 =
          .ok (.tag
            (E.git_reference_lookup s.world ("refs/tags/" ++ ("refs/tags/" ++ rest))).2))) := by
  refine ⟨fun h0 => ?_, fun h => ?_⟩
  · have h1 : (E.git_reference_lookup s.world ("refs/tags/" ++ rest)).1 ≠ GIT_ENOTFOUND := by
      rw [h0]; decide
    have h2 : (E.git_reference_lookup s.world ("refs/tags/" ++ rest)).1 ≠ GIT_EINVALIDSPEC := by
      rw [h0]; decide
    rw [aref_of_raw_other E _ s h1 h2, h0, aref_finish_ok]; rfl
  · rw [aref_of_raw_missing E _ s h]
    refine ⟨?_, fun h2 => ?_, fun h2 => ?_⟩
    · split
      · simp [St.emit]
      · rw [aref_finish_world]; simp [St.emit]
    · rw [if_pos h2]
    · have : (E.git_reference_lookup s.world ("refs/tags/" ++ ("refs/tags/" ++ rest))).1 ≠
          GIT_ENOTFOUND := by rw [h2]; decide
      rw [if_neg this, h2, aref_finish_ok]

/-- C8, amended, at `tags["refs/tags/v1"]` on the example repository: the name
itself resolves and is returned after a single lookup. -/
theorem C8_aref_canonical_name_witness :
    rb_git_tag_collection_aref exEngine (.str ("refs/tags/" ++ "v1")) exSt =
      (.ok (.tag (exEngine.git_reference_lookup exSt.world ("refs/tags/" ++ "v1")).2),
        ⟨exSt.world, exSt.log ++ [.reference_lookup ("refs/tags/" ++ "v1")]⟩) :=
  (C8_aref_canonical_name exEngine "v1" exSt).1 (by decide)

/-! ## Lemmas on the reference store of the specification -/

theorem lookup_filter_ne (refs : List (String × git_oid)) (k : String) :
    (refs.filter (fun e => e.1 != k)).lookup k = none := by
  induction refs with
  | nil => rfl
  | cons e rest ih =>
    obtain ⟨a, b⟩ := e
    simp only [List.filter_cons]
    split
    · rename_i h
      have hk : (k == a) = false := by
        simp only [bne_iff_ne, ne_eq] at h
        simp [Ne.symm h]
      rw [List.lookup_cons, hk]
      exact ih
    · exact ih

theorem lookup_store_write (refs : List (String × git_oid)) (k : String) (v : git_oid) :
    (store_write refs k v).lookup k = some v := by
  simp [store_write, List.lookup]

/-! ## `tags.delete` -/

/-- C6: `tags.delete(name)` issues exactly one deletion request, for exactly
the name given; it returns `nil` when the engine succeeds and raises the
engine's error otherwise, `NotFound` included (never converted to `nil`); on
the engine of the specification an absent tag is reported as `NotFound`, so a
second delete of the same name after a successful one raises `NotFound`. -/
theorem C6_delete_exact_name {W : Type} (E : Engine W) (name : String) (s : St W)
    (hash : TagObject → git_oid) (glob : String → String → Bool) (t : St Repo) :
    (rb_git_tag_collection_delete E (.str name) s).2 =
      ⟨(E.git_tag_delete s.world name).2, s.log ++ [.tag_delete name]⟩ ∧
    ((E.git_tag_delete s.world name).1 = GIT_OK →
      (rb_git_tag_collection_delete E (.str name) s).1 = .ok .Qnil) ∧
    ((E.git_tag_delete s.world name).1 = GIT_ENOTFOUND →
      (rb_git_tag_collection_delete E (.str name) s).1 = .error (.rugged GIT_ENOTFOUND)) ∧
    ((E.git_tag_delete s.world name).1 < 0 →
      (rb_git_tag_collection_delete E (.str name) s).1 =
        .error (.rugged (E.git_tag_delete s.world name).1)) ∧
    (t.world.refs.lookup ("refs/tags/" ++ name) = none →
      (rb_git_tag_collection_delete (specEngine hash glob) (.str name) t).1 =
        .error (.rugged GIT_ENOTFOUND)) ∧
    ((rb_git_tag_collection_delete (specEngine hash glob) (.str name) t).1 = .ok .Qnil →
      (rb_git_tag_collection_delete (specEngine hash glob) (.str name)
        (rb_git_tag_collection_delete (specEngine hash glob) (.str name) t).2).1 =
        .error (.rugged GIT_ENOTFOUND)) := by
  refine ⟨?_, ?_, ?_, ?_, ?_, ?_⟩
  · simp only [rb_git_tag_collection_delete, Check_Type_String]
    split <;> rfl
  · intro h
    simp [rb_git_tag_collection_delete, Check_Type_String, h, rugged_exception_check, GIT_OK]
  · intro h
    simp [rb_git_tag_collection_delete, Check_Type_String, h, rugged_exception_check,
      GIT_ENOTFOUND]
  · intro h
    simp [rb_git_tag_collection_delete, Check_Type_String, h, rugged_exception_check]
  · intro h
    simp [rb_git_tag_collection_delete, Check_Type_String, specEngine, spec_tag_delete,
      tag_namespace, h, rugged_exception_check, GIT_ENOTFOUND]
  · intro h
    by_cases hex : (t.world.refs.lookup ("refs/tags/" ++ name)).isSome
    · simp [rb_git_tag_collection_delete, Check_Type_String, specEngine, spec_tag_delete,
        tag_namespace, hex, rugged_exception_check, GIT_OK, GIT_ENOTFOUND, lookup_filter_ne]
    · simp [rb_git_tag_collection_delete, Check_Type_String, specEngine, spec_tag_delete,
        tag_namespace, hex, rugged_exception_check, GIT_ENOTFOUND] at h

/-- C6, at `tags.delete("v1")` on the example repository: the first delete
returns `nil`, a second one raises `NotFound`. -/
theorem C6_delete_exact_name_witness :
    (rb_git_tag_collection_delete exEngine (.str "v1") exSt).1 = .ok .Qnil ∧
    (rb_git_tag_collection_delete exEngine (.str "v1")
      (rb_git_tag_collection_delete exEngine (.str "v1") exSt).2).1 =
      .error (.rugged GIT_ENOTFOUND) :=
  ⟨by decide,
    (C6_delete_exact_name exEngine "v1" exSt exHash exGlob exSt).2.2.2.2.2 (by decide)⟩

/-! ## `tags.create`: the returned value -/

/-- C4, evaluated on the example repository: a lightweight `tags.create("v2", 2)`
makes the engine write id 2 and an annotated `tags.create("v4", 2, message: "m")`
makes it write the new tag object's id 102; both calls return the value of
`tags[name]`, a tag reference object, and not the object id. -/
theorem C4_create_returns_tag_reference :
    (exEngine.git_tag_create_lightweight exRepo "v2" ⟨2, .Commit⟩ 0).1 = GIT_OK ∧
    (exEngine.git_tag_create_lightweight exRepo "v2" ⟨2, .Commit⟩ 0).2.1 = 2 ∧
    (rb_git_tag_collection_create exEngine (.str "v2") (.object 2) .Qnil none exSt).1 =
      .ok (.tag ⟨"refs/tags/v2", 2⟩) ∧
    (rb_git_tag_collection_create exEngine (.str "v2") (.object 2) .Qnil none exSt).1 ≠
      .ok (.oid 2) ∧
    (rb_git_tag_collection_create exEngine (.str "v4") (.object 2) .Qnil
      (some ⟨.Qnil, .str "m"⟩) exSt).1 = .ok (.tag ⟨"refs/tags/v4", 102⟩) ∧
    (rb_git_tag_collection_create exEngine (.str "v4") (.object 2) .Qnil
      (some ⟨.Qnil, .str "m"⟩) exSt).1 ≠ .ok (.oid 102) := by
  decide

/-! ## `tags.create` followed by `tags[name]` -/

theorem valid_name_canonical (n : String) (h : valid_name n = true) :
    valid_name ("refs/tags/" ++ n) = true := by
  simp only [valid_name, Bool.and_eq_true, String.data_append, List.all_append] at h ⊢
  refine ⟨?_, ?_, h.2⟩
  · cases hn : n.data <;> simp [hn] at h ⊢
  · decide

theorem create_lightweight_eq {W : Type} (E : Engine W) (n : String) (target rb_force : VALUE)
    (s : St W) (force : Int) (obj : git_object) (hf : parse_force rb_force = .ok force)
    (ho : E.rugged_object_get s.world target = .ok obj) :
    rb_git_tag_collection_create E (.str n) target rb_force none s =
      match rugged_exception_check (E.git_tag_create_lightweight s.world n obj force).1 with
      | .error e => (.error e, ⟨(E.git_tag_create_lightweight s.world n obj force).2.2,
          s.log ++ [.tag_create_lightweight n obj force]⟩)
      | .ok _ => rb_git_tag_collection_aref E (.str n)
          ⟨(E.git_tag_create_lightweight s.world n obj force).2.2,
            s.log ++ [.tag_create_lightweight n obj force]⟩ := by
  simp only [rb_git_tag_collection_create, Check_Type_String, hf, ho]

theorem spec_lookup_code (w : Repo) (name : String) :
    (store_lookup w name).1 = GIT_OK ∨ (store_lookup w name).1 = GIT_ENOTFOUND ∨
      (store_lookup w name).1 = GIT_EINVALIDSPEC := by
  unfold store_lookup
  split
  · split <;> simp
  · simp

theorem spec_lookup_written (w : Repo) (n : String) (id : git_oid)
    (hv : valid_name n = true) :
    store_lookup { w with refs := store_write w.refs ("refs/tags/" ++ n) id }
      ("refs/tags/" ++ n) = (GIT_OK, ⟨"refs/tags/" ++ n, id⟩) := by
  simp [store_lookup, valid_name_canonical n hv, lookup_store_write]

theorem spec_create_lightweight_ok (w : Repo) (n : String) (obj : git_object) (force : Int)
    (h : ¬ (spec_tag_create_lightweight w n obj force).1 < 0) :
    valid_name n = true ∧
    spec_tag_create_lightweight w n obj force =
      (GIT_OK, obj.id, { w with refs := store_write w.refs ("refs/tags/" ++ n) obj.id }) := by
  unfold spec_tag_create_lightweight at h ⊢
  by_cases hv : valid_name n = true
  · refine ⟨hv, ?_⟩
    simp only [hv, Bool.not_true, Bool.false_eq_true, if_false] at h ⊢
    split
    · rename_i hc
      simp [hc, GIT_EEXISTS] at h
    · rfl
  · simp [hv, GIT_EINVALIDSPEC] at h

/-- The value of `tags[n]` in the engine of the specification once
`refs/tags/n` is stored: the raw-name reference when one exists, else the
canonical one. -/
theorem spec_aref_after_write (hash : TagObject → git_oid) (glob : String → String → Bool)
    (w : Repo) (n : String) (id : git_oid) (log : List Event)
    (hc : store_lookup w ("refs/tags/" ++ n) = (GIT_OK, ⟨"refs/tags/" ++ n, id⟩)) :
    ((store_lookup w n).1 = GIT_OK →
      (rb_git_tag_collection_aref (specEngine hash glob) (.str n) ⟨w, log⟩).1 =
        .ok (.tag (store_lookup w n).2)) ∧
    ((store_lookup w n).1 = GIT_ENOTFOUND ∨ (store_lookup w n).1 = GIT_EINVALIDSPEC →
      (rb_git_tag_collection_aref (specEngine hash glob) (.str n) ⟨w, log⟩).1 =
        .ok (.tag ⟨"refs/tags/" ++ n, id⟩)) := by
  constructor
  · intro h0
    have h1 : ((specEngine hash glob).git_reference_lookup (St.mk w log).world n).1 ≠
        GIT_ENOTFOUND := by
      show (store_lookup w n).1 ≠ _
      rw [h0]; decide
    have h2 : ((specEngine hash glob).git_reference_lookup (St.mk w log).world n).1 ≠
        GIT_EINVALIDSPEC := by
      show (store_lookup w n).1 ≠ _
      rw [h0]; decide
    rw [aref_of_raw_other _ n _ h1 h2]
    show (aref_finish (store_lookup w n).1 _ _).1 = _
    rw [h0, aref_finish_ok]
    rfl
  · intro h
    rw [aref_of_raw_missing (specEngine hash glob) n ⟨w, log⟩ h]
    show (if (store_lookup w ("refs/tags/" ++ n)).1 = GIT_ENOTFOUND then _ else
      aref_finish (store_lookup w ("refs/tags/" ++ n)).1 (store_lookup w ("refs/tags/" ++ n)).2
        _).1 = _
    rw [hc]
    have : ¬ (GIT_OK = GIT_ENOTFOUND) := by decide
    simp only [this, if_false, aref_finish_ok]

/-- C1, refuted as stated: on the example repository
`tags.create("refs/heads/master", 2)` succeeds and writes
`refs/tags/refs/heads/master` at object 2, but `tags["refs/heads/master"]`
returns the branch `refs/heads/master`, whose target is object 1. -/
theorem C1_create_then_aref_shadowed :
    (rb_git_tag_collection_create exEngine (.str "refs/heads/master") (.object 2) .Qnil none
      exSt).1 = .ok (.tag ⟨"refs/heads/master", 1⟩) ∧
    (rb_git_tag_collection_create exEngine (.str "refs/heads/master") (.object 2) .Qnil none
      exSt).2.world.refs.lookup "refs/tags/refs/heads/master" = some 2 ∧
    (rb_git_tag_collection_aref exEngine (.str "refs/heads/master")
      (rb_git_tag_collection_create exEngine (.str "refs/heads/master") (.object 2) .Qnil none
        exSt).2).1 = .ok (.tag ⟨"refs/heads/master", 1⟩) := by
  decide

/-- C1, amended: after a lightweight `tags.create(n, target)` succeeds, the
reference `refs/tags/n` points at the object the target resolved to, and
`tags[n]` returns that reference provided the raw name `n` does not itself
resolve (its lookup reports not-found or an invalid name); when a reference
named exactly `n` exists, `tags[n]` returns that reference. -/
theorem C1_create_then_aref (hash : TagObject → git_oid) (glob : String → String → Bool)
    (w : Repo) (log log2 : List Event) (n : String) (target v : VALUE) (obj : git_object)
    (hres : spec_object_get w target = .ok obj)
    (hok : (rb_git_tag_collection_create (specEngine hash glob) (.str n) target .Qnil none
      ⟨w, log⟩).1 = .ok v) :
    store_lookup (rb_git_tag_collection_create (specEngine hash glob) (.str n) target .Qnil
        none ⟨w, log⟩).2.world ("refs/tags/" ++ n) =
      (GIT_OK, ⟨"refs/tags/" ++ n, obj.id⟩) ∧
    ((store_lookup (rb_git_tag_collection_create (specEngine hash glob) (.str n) target .Qnil
          none ⟨w, log⟩).2.world n).1 = GIT_ENOTFOUND ∨
        (store_lookup (rb_git_tag_collection_create (specEngine hash glob) (.str n) target
          .Qnil none ⟨w, log⟩).2.world n).1 = GIT_EINVALIDSPEC →
      (rb_git_tag_collection_aref (specEngine hash glob) (.str n)
        ⟨(rb_git_tag_collection_create (specEngine hash glob) (.str n) target .Qnil none
          ⟨w, log⟩).2.world, log2⟩).1 = .ok (.tag ⟨"refs/tags/" ++ n, obj.id⟩)) ∧
    ((store_lookup (rb_git_tag_collection_create (specEngine hash glob) (.str n) target .Qnil
          none ⟨w, log⟩).2.world n).1 = GIT_OK →
      (rb_git_tag_collection_aref (specEngine hash glob) (.str n)
        ⟨(rb_git_tag_collection_create (specEngine hash glob) (.str n) target .Qnil none
          ⟨w, log⟩).2.world, log2⟩).1 =
        .ok (.tag (store_lookup (rb_git_tag_collection_create (specEngine hash glob) (.str n)
          target .Qnil none ⟨w, log⟩).2.world n).2)) := by
  have heq := create_lightweight_eq (specEngine hash glob) n target .Qnil ⟨w, log⟩ 0 obj rfl hres
  have hcode : ¬ (spec_tag_create_lightweight w n obj 0).1 < 0 := by
    intro hneg
    rw [heq] at hok
    have : rugged_exception_check
        ((specEngine hash glob).git_tag_create_lightweight (St.mk w log).world n obj 0).1 =
        .error (.rugged (spec_tag_create_lightweight w n obj 0).1) := by
      show rugged_exception_check (spec_tag_create_lightweight w n obj 0).1 = _
      simp [rugged_exception_check, hneg]
    rw [this] at hok
    simp at hok
  obtain ⟨hv, hcr⟩ := spec_create_lightweight_ok w n obj 0 hcode
  have hworld : (rb_git_tag_collection_create (specEngine hash glob) (.str n) target .Qnil
      none ⟨w, log⟩).2.world =
      { w with refs := store_write w.refs ("refs/tags/" ++ n) obj.id } := by
    have e : (specEngine hash glob).git_tag_create_lightweight (St.mk w log).world n obj 0 =
        spec_tag_create_lightweight w n obj 0 := rfl
    rw [heq, e, hcr]
    simp only [rugged_exception_check, GIT_OK, lt_self_iff_false, if_false]
    rw [aref_world]
  rw [hworld]
  have hc := spec_lookup_written w n obj.id hv
  have h := spec_aref_after_write hash glob _ n obj.id log2 hc
  exact ⟨hc, h.2, h.1⟩

/-- C1, amended, at `tags.create("v2", 2)` on the example repository: the raw
name `v2` does not resolve and `tags["v2"]` returns `refs/tags/v2` at
object 2. -/
theorem C1_create_then_aref_witness :
    (rb_git_tag_collection_aref (specEngine exHash exGlob) (.str "v2")
      ⟨(rb_git_tag_collection_create (specEngine exHash exGlob) (.str "v2") (.object 2) .Qnil
        none ⟨exRepo, []⟩).2.world, []⟩).1 =
      .ok (.tag ⟨"refs/tags/" ++ "v2", (git_object.mk 2 .Commit).id⟩) :=
  (C1_create_then_aref exHash exGlob exRepo [] [] "v2" (.object 2)
    (.tag ⟨"refs/tags/v2", 2⟩) ⟨2, .Commit⟩ (by decide) (by decide)).2.1 (by decide)

/-! ## `tags.create`: collisions and `force` -/

/-- C5, refuted as stated: on `exShadowRepo` the tag `refs/heads/master` exists
at object 1; `tags.create("refs/heads/master", 2, true)` succeeds and rewrites
it at object 2, but a following `tags["refs/heads/master"]` returns the branch
of that name, whose target is object 1. -/
theorem C5_force_then_aref_shadowed :
    exShadowRepo.refs.lookup "refs/tags/refs/heads/master" = some 1 ∧
    (rb_git_tag_collection_create exEngine (.str "refs/heads/master") (.object 2) .Qtrue none
      ⟨exShadowRepo, []⟩).1 = .ok (.tag ⟨"refs/heads/master", 1⟩) ∧
    (rb_git_tag_collection_create exEngine (.str "refs/heads/master") (.object 2) .Qtrue none
      ⟨exShadowRepo, []⟩).2.world.refs.lookup "refs/tags/refs/heads/master" = some 2 ∧
    (rb_git_tag_collection_aref exEngine (.str "refs/heads/master")
      (rb_git_tag_collection_create exEngine (.str "refs/heads/master") (.object 2) .Qtrue
        none ⟨exShadowRepo, []⟩).2).1 = .ok (.tag ⟨"refs/heads/master", 1⟩) := by
  decide

/-- C5, amended: for an existing tag `n` and a resolvable target `T2`,
`tags.create(n, T2)` with `force` omitted or `false` passes `force = 0` to the
engine, fails with `AlreadyExists` and leaves the repository unchanged;
`tags.create(n, T2, true)` passes `force = 1`, succeeds and rewrites
`refs/tags/n` at `T2`, and a following `tags[n]` returns that reference
provided the raw name `n` does not itself resolve. -/
theorem C5_create_collision (hash : TagObject → git_oid) (glob : String → String → Bool)
    (w : Repo) (log log2 : List Event) (n : String) (T2 : VALUE) (old : git_oid)
    (obj2 : git_object) (hv : valid_name n = true)
    (hex : w.refs.lookup ("refs/tags/" ++ n) = some old)
    (hres : spec_object_get w T2 = .ok obj2) :
    rb_git_tag_collection_create (specEngine hash glob) (.str n) T2 .Qnil none ⟨w, log⟩ =
      (.error (.rugged GIT_EEXISTS), ⟨w, log ++ [.tag_create_lightweight n obj2 0]⟩) ∧
    rb_git_tag_collection_create (specEngine hash glob) (.str n) T2 .Qfalse none ⟨w, log⟩ =
      (.error (.rugged GIT_EEXISTS), ⟨w, log ++ [.tag_create_lightweight n obj2 0]⟩) ∧
    (∃ v, (rb_git_tag_collection_create (specEngine hash glob) (.str n) T2 .Qtrue none
      ⟨w, log⟩).1 = .ok v) ∧
    (log ++ [.tag_create_lightweight n obj2 1]) <+:
      (rb_git_tag_collection_create (specEngine hash glob) (.str n) T2 .Qtrue none
        ⟨w, log⟩).2.log ∧
    store_lookup (rb_git_tag_collection_create (specEngine hash glob) (.str n) T2 .Qtrue none
        ⟨w, log⟩).2.world ("refs/tags/" ++ n) = (GIT_OK, ⟨"refs/tags/" ++ n, obj2.id⟩) ∧
    ((store_lookup (rb_git_tag_collection_create (specEngine hash glob) (.str n) T2 .Qtrue
          none ⟨w, log⟩).2.world n).1 = GIT_ENOTFOUND ∨
        (store_lookup (rb_git_tag_collection_create (specEngine hash glob) (.str n) T2 .Qtrue
          none ⟨w, log⟩).2.world n).1 = GIT_EINVALIDSPEC →
      (rb_git_tag_collection_aref (specEngine hash glob) (.str n)
        ⟨(rb_git_tag_collection_create (specEngine hash glob) (.str n) T2 .Qtrue none
          ⟨w, log⟩).2.world, log2⟩).1 = .ok (.tag ⟨"refs/tags/" ++ n, obj2.id⟩)) := by
  have e0 : (specEngine hash glob).git_tag_create_lightweight (St.mk w log).world n obj2 0 =
      (GIT_EEXISTS, 0, w) := by
    show spec_tag_create_lightweight w n obj2 0 = _
    simp [spec_tag_create_lightweight, hv, tag_namespace, hex]
  have e1 : (specEngine hash glob).git_tag_create_lightweight (St.mk w log).world n obj2 1 =
      (GIT_OK, obj2.id, { w with refs := store_write w.refs ("refs/tags/" ++ n) obj2.id }) := by
    show spec_tag_create_lightweight w n obj2 1 = _
    simp [spec_tag_create_lightweight, hv, tag_namespace]
  have hfail : ∀ f : VALUE, parse_force f = .ok 0 →
      rb_git_tag_collection_create (specEngine hash glob) (.str n) T2 f none ⟨w, log⟩ =
        (.error (.rugged GIT_EEXISTS), ⟨w, log ++ [.tag_create_lightweight n obj2 0]⟩) := by
    intro f hf
    rw [create_lightweight_eq (specEngine hash glob) n T2 f ⟨w, log⟩ 0 obj2 hf hres, e0]
    simp [rugged_exception_check, GIT_EEXISTS]
  have hforce : rb_git_tag_collection_create (specEngine hash glob) (.str n) T2 .Qtrue none
      ⟨w, log⟩ = rb_git_tag_collection_aref (specEngine hash glob) (.str n)
        ⟨{ w with refs := store_write w.refs ("refs/tags/" ++ n) obj2.id },
          log ++ [.tag_create_lightweight n obj2 1]⟩ := by
    rw [create_lightweight_eq (specEngine hash glob) n T2 .Qtrue ⟨w, log⟩ 1 obj2 rfl hres, e1]
    simp [rugged_exception_check, GIT_OK]
  have hc := spec_lookup_written w n obj2.id hv
  have hworld : (rb_git_tag_collection_create (specEngine hash glob) (.str n) T2 .Qtrue none
      ⟨w, log⟩).2.world =
      { w with refs := store_write w.refs ("refs/tags/" ++ n) obj2.id } := by
    rw [hforce, aref_world]
  refine ⟨hfail .Qnil rfl, hfail .Qfalse rfl, ?_, ?_, ?_, ?_⟩
  · rw [hforce]
    have h := spec_aref_after_write hash glob _ n obj2.id
      (log ++ [.tag_create_lightweight n obj2 1]) hc
    rcases spec_lookup_code
      { w with refs := store_write w.refs ("refs/tags/" ++ n) obj2.id } n with h0 | h0 | h0
    · exact ⟨_, h.1 h0⟩
    · exact ⟨_, h.2 (Or.inl h0)⟩
    · exact ⟨_, h.2 (Or.inr h0)⟩
  · rw [hforce]
    rcases (aref_log (specEngine hash glob) n
      ⟨{ w with refs := store_write w.refs ("refs/tags/" ++ n) obj2.id },
        log ++ [.tag_create_lightweight n obj2 1]⟩) with h | h <;> rw [h] <;> simp
  · rw [hworld]; exact hc
  · rw [hworld]
    exact (spec_aref_after_write hash glob _ n obj2.id log2 hc).2

/-- C5, amended, at tag `v1` of the example repository with target object 2. -/
theorem C5_create_collision_witness :
    rb_git_tag_collection_create (specEngine exHash exGlob) (.str "v1") (.object 2) .Qnil none
        ⟨exRepo, []⟩ =
      (.error (.rugged GIT_EEXISTS),
        ⟨exRepo, [] ++ [.tag_create_lightweight "v1" ⟨2, .Commit⟩ 0]⟩) ∧
    (rb_git_tag_collection_aref (specEngine exHash exGlob) (.str "v1")
      ⟨(rb_git_tag_collection_create (specEngine exHash exGlob) (.str "v1") (.object 2) .Qtrue
        none ⟨exRepo, []⟩).2.world, []⟩).1 =
      .ok (.tag ⟨"refs/tags/" ++ "v1", (git_object.mk 2 .Commit).id⟩) :=
  ⟨(C5_create_collision exHash exGlob exRepo [] [] "v1" (.object 2) 1 ⟨2, .Commit⟩
      (by decide) (by decide) (by decide)).1,
    (C5_create_collision exHash exGlob exRepo [] [] "v1" (.object 2) 1 ⟨2, .Commit⟩
      (by decide) (by decide) (by decide)).2.2.2.2.2 (by decide)⟩

/-! ## `tags.create` with an annotation -/

theorem check_type_not_string (v : VALUE) (h : ∀ m, v ≠ .str m) :
    Check_Type_String v = .error .TypeError := by
  cases v <;> first | rfl | exact absurd rfl (h _)

theorem create_annotated_eq {W : Type} (E : Engine W) (n : String)
    (target rb_force tagger : VALUE) (m : String) (s : St W) (force : Int) (obj : git_object)
    (sig : git_signature) (hf : parse_force rb_force = .ok force)
    (ho : E.rugged_object_get s.world target = .ok obj)
    (hs : E.rugged_signature_get s.world tagger = .ok sig) :
    rb_git_tag_collection_create E (.str n) target rb_force (some ⟨tagger, .str m⟩) s =
      match rugged_exception_check (E.git_tag_create s.world n obj sig m force).1 with
      | .error e => (.error e, ⟨(E.git_tag_create s.world n obj sig m force).2.2,
          s.log ++ [.tag_create n obj sig m force]⟩)
      | .ok _ => rb_git_tag_collection_aref E (.str n)
          ⟨(E.git_tag_create s.world n obj sig m force).2.2,
            s.log ++ [.tag_create n obj sig m force]⟩ := by
  simp only [rb_git_tag_collection_create, Check_Type_String, hf, ho, hs]

/-- C7, refuted as stated: on the example repository an annotated
`tags.create("v4", 2, message: "")` with the empty message succeeds, stores a
tag object with the empty message and writes `refs/tags/v4` at it. -/
theorem C7_empty_message_accepted :
    (rb_git_tag_collection_create exEngine (.str "v4") (.object 2) .Qnil
      (some ⟨.Qnil, .str ""⟩) exSt).1 = .ok (.tag ⟨"refs/tags/v4", 102⟩) ∧
    (rb_git_tag_collection_create exEngine (.str "v4") (.object 2) .Qnil
      (some ⟨.Qnil, .str ""⟩) exSt).2.world.odb.lookup 102 =
      some (.tag ⟨2, .Commit, ⟨"A U Thor", "author@example.com", 0⟩, ""⟩) ∧
    (rb_git_tag_collection_create exEngine (.str "v4") (.object 2) .Qnil
      (some ⟨.Qnil, .str ""⟩) exSt).2.world.refs.lookup "refs/tags/v4" = some 102 := by
  decide

/-- C7, amended: with an annotation present the message must be a String: a
call whose message is missing (`nil`) or not a String fails and changes
nothing, no engine call being made; a String message, the empty one included,
is passed unchanged to the engine's tag creation, whose error, if any, is
raised; on the engine of the specification a call with a message and no
tagger, a configured default identity, a valid and unused name and a
resolvable target succeeds, storing a tag object with the default identity as
tagger and that message, and `refs/tags/<name>` pointing at it. -/
theorem C7_create_annotated {W : Type} (E : Engine W) (s : St W)
    (rb_name target rb_force tagger message : VALUE) (n m : String) (force : Int)
    (obj : git_object) (sig : git_signature)
    (hash : TagObject → git_oid) (glob : String → String → Bool) (w : Repo) (log : List Event)
    (wtarget : VALUE) (wobj : git_object) (wsig : git_signature) :
    ((∀ m, message ≠ .str m) →
      (∃ e, (rb_git_tag_collection_create E rb_name target rb_force
        (some ⟨tagger, message⟩) s).1 = .error e) ∧
      (rb_git_tag_collection_create E rb_name target rb_force
        (some ⟨tagger, message⟩) s).2 = s) ∧
    (parse_force rb_force = .ok force → E.rugged_object_get s.world target = .ok obj →
      E.rugged_signature_get s.world tagger = .ok sig →
      (s.log ++ [.tag_create n obj sig m force]) <+:
        (rb_git_tag_collection_create E (.str n) target rb_force
          (some ⟨tagger, .str m⟩) s).2.log ∧
      ((E.git_tag_create s.world n obj sig m force).1 < 0 →
        (rb_git_tag_collection_create E (.str n) target rb_force
          (some ⟨tagger, .str m⟩) s).1 =
          .error (.rugged (E.git_tag_create s.world n obj sig m force).1))) ∧
    (valid_name n = true → w.refs.lookup ("refs/tags/" ++ n) = none →
      spec_object_get w wtarget = .ok wobj → w.identity = some wsig →
      (∃ v, (rb_git_tag_collection_create (specEngine hash glob) (.str n) wtarget .Qnil
        (some ⟨.Qnil, .str m⟩) ⟨w, log⟩).1 = .ok v) ∧
      (rb_git_tag_collection_create (specEngine hash glob) (.str n) wtarget .Qnil
        (some ⟨.Qnil, .str m⟩) ⟨w, log⟩).2.world.odb.lookup
          (hash ⟨wobj.id, wobj.type, wsig, m⟩) =
        some (.tag ⟨wobj.id, wobj.type, wsig, m⟩) ∧
      (rb_git_tag_collection_create (specEngine hash glob) (.str n) wtarget .Qnil
        (some ⟨.Qnil, .str m⟩) ⟨w, log⟩).2.world.refs.lookup ("refs/tags/" ++ n) =
        some (hash ⟨wobj.id, wobj.type, wsig, m⟩)) := by
  refine ⟨fun hm => ?_, fun hf ho hs => ?_, fun hv hfree hres hid => ?_⟩
  · have hc := check_type_not_string message hm
    unfold rb_git_tag_collection_create
    split
    · exact ⟨⟨_, rfl⟩, rfl⟩
    · split
      · exact ⟨⟨_, rfl⟩, rfl⟩
      · split
        · exact ⟨⟨_, rfl⟩, rfl⟩
        · simp only []
          split
          · exact ⟨⟨_, rfl⟩, rfl⟩
          · rw [hc]
            exact ⟨⟨_, rfl⟩, rfl⟩
  · rw [create_annotated_eq E n target rb_force tagger m s force obj sig hf ho hs]
    constructor
    · split
      · exact List.prefix_refl _
      · rcases aref_log E n ⟨(E.git_tag_create s.world n obj sig m force).2.2,
          s.log ++ [.tag_create n obj sig m force]⟩ with h | h <;> rw [h] <;> simp
    · intro hneg
      simp [rugged_exception_check, hneg]
  · have hs : (specEngine hash glob).rugged_signature_get (St.mk w log).world .Qnil =
        .ok wsig := by
      show spec_signature_get w .Qnil = _
      simp [spec_signature_get, hid]
    have e1 : (specEngine hash glob).git_tag_create (St.mk w log).world n wobj wsig m 0 =
        (GIT_OK, hash ⟨wobj.id, wobj.type, wsig, m⟩,
          { w with
            odb := (hash ⟨wobj.id, wobj.type, wsig, m⟩, .tag ⟨wobj.id, wobj.type, wsig, m⟩) ::
              w.odb
            refs := store_write w.refs ("refs/tags/" ++ n)
              (hash ⟨wobj.id, wobj.type, wsig, m⟩) }) := by
      show spec_tag_create hash w n wobj wsig m 0 = _
      simp [spec_tag_create, hv, tag_namespace, hfree]
    have hcreate : rb_git_tag_collection_create (specEngine hash glob) (.str n) wtarget .Qnil
        (some ⟨.Qnil, .str m⟩) ⟨w, log⟩ =
        rb_git_tag_collection_aref (specEngine hash glob) (.str n)
          ⟨{ w with
            odb := (hash ⟨wobj.id, wobj.type, wsig, m⟩, .tag ⟨wobj.id, wobj.type, wsig, m⟩) ::
              w.odb
            refs := store_write w.refs ("refs/tags/" ++ n)
              (hash ⟨wobj.id, wobj.type, wsig, m⟩) },
            log ++ [.tag_create n wobj wsig m 0]⟩ := by
      rw [create_annotated_eq (specEngine hash glob) n wtarget .Qnil .Qnil m ⟨w, log⟩ 0 wobj
        wsig rfl hres hs, e1]
      simp [rugged_exception_check, GIT_OK]
    have hc : store_lookup
        { w with
          odb := (hash ⟨wobj.id, wobj.type, wsig, m⟩, .tag ⟨wobj.id, wobj.type, wsig, m⟩) ::
            w.odb
          refs := store_write w.refs ("refs/tags/" ++ n)
            (hash ⟨wobj.id, wobj.type, wsig, m⟩) } ("refs/tags/" ++ n) =
        (GIT_OK, ⟨"refs/tags/" ++ n, hash ⟨wobj.id, wobj.type, wsig, m⟩⟩) := by
      simp [store_lookup, valid_name_canonical n hv, lookup_store_write]
    rw [hcreate]
    refine ⟨?_, ?_, ?_⟩
    · have h := spec_aref_after_write hash glob _ n _ (log ++ [.tag_create n wobj wsig m 0]) hc
      rcases spec_lookup_code
        { w with
          odb := (hash ⟨wobj.id, wobj.type, wsig, m⟩, .tag ⟨wobj.id, wobj.type, wsig, m⟩) ::
            w.odb
          refs := store_write w.refs ("refs/tags/" ++ n)
            (hash ⟨wobj.id, wobj.type, wsig, m⟩) } n with h0 | h0 | h0
      · exact ⟨_, h.1 h0⟩
      · exact ⟨_, h.2 (Or.inl h0)⟩
      · exact ⟨_, h.2 (Or.inr h0)⟩
    · rw [aref_world]
      simp [List.lookup]
    · rw [aref_world]
      exact lookup_store_write _ _ _

/-- C7, amended, at an annotated `tags.create("v4", 2, message: "release")`
without tagger on the example repository: the call succeeds and the stored
tag object carries the default identity and the message. -/
theorem C7_create_annotated_witness :
    (rb_git_tag_collection_create (specEngine exHash exGlob) (.str "v4") (.object 2) .Qnil
      (some ⟨.Qnil, .str "release"⟩) ⟨exRepo, []⟩).2.world.odb.lookup
        (exHash ⟨(git_object.mk 2 .Commit).id, (git_object.mk 2 .Commit).type,
          ⟨"A U Thor", "author@example.com", 0⟩, "release"⟩) =
      some (.tag ⟨(git_object.mk 2 .Commit).id, (git_object.mk 2 .Commit).type,
        ⟨"A U Thor", "author@example.com", 0⟩, "release"⟩) :=
  ((C7_create_annotated exEngine exSt (.str "v4") (.object 2) .Qnil .Qnil (.str "release")
    "v4" "release" 0 ⟨2, .Commit⟩ ⟨"A U Thor", "author@example.com", 0⟩ exHash exGlob exRepo []
    (.object 2) ⟨2, .Commit⟩ ⟨"A U Thor", "author@example.com", 0⟩).2.2
    (by decide) (by decide) (by decide) (by decide)).2.1

/-! ## `tags.each_name` -/

theorem each_name_loop_quiet {W : Type} (block : Block W) (hblock : ∀ v w, (block v w).1 = none)
    (names : List String) (s : St W) :
    each_name_loop block names none s =
      (none, ⟨names.foldl (fun w n => (block (.str n) w).2) s.world,
        s.log ++ names.map (fun n => .yield (.str n))⟩) := by
  induction names generalizing s with
  | nil => simp [each_name_loop]
  | cons n rest ih =>
    simp only [each_name_loop, rb_protect_yield, hblock]
    rw [ih]
    simp

theorem short_name_eq_some (full n : String) :
    short_name full = some n ↔ full = "refs/tags/" ++ n := by
  unfold short_name
  constructor
  · intro h
    split at h
    · rename_i hp
      rw [List.isPrefixOf_iff_prefix] at hp
      obtain ⟨t, ht⟩ := hp
      simp only [Option.some.injEq] at h
      rw [← h, ← ht]
      apply String.ext
      simp [tag_namespace, ← ht]
    · simp at h
  · intro h
    subst h
    have hp : tag_namespace.data.isPrefixOf ("refs/tags/" ++ n).data = true := by
      rw [List.isPrefixOf_iff_prefix]
      exact ⟨n.data, by simp [tag_namespace]⟩
    rw [if_pos hp]
    congr 1

theorem mem_spec_tag_list_all (glob : String → String → Bool) (w : Repo) (n : String) :
    n ∈ (spec_tag_list_match glob w "").2 ↔ ∃ id, ("refs/tags/" ++ n, id) ∈ w.refs := by
  simp only [spec_tag_list_match, List.mem_filter, List.mem_insertionSort, List.mem_filterMap]
  constructor
  · rintro ⟨⟨e, he, hs⟩, _⟩
    rw [short_name_eq_some] at hs
    exact ⟨e.2, by rw [← hs]; exact he⟩
  · rintro ⟨id, hid⟩
    exact ⟨⟨(_, id), hid, (short_name_eq_some _ _).2 rfl⟩, by simp⟩

/-- C9: with a block that never raises, `tags.each_name(pattern) { block }`
asks the engine for the list matching the pattern, calls the block exactly
once for each name of that list, in the list's order, and then returns `nil`;
an omitted (`nil`) pattern behaves exactly as the empty pattern `""`, and for
the empty pattern the engine of the specification returns all tag names. -/
theorem C9_each_name_yields_list {W : Type} (E : Engine W) (p : String) (block : Block W)
    (s : St W) (glob : String → String → Bool) (w : Repo) (n : String)
    (hblock : ∀ v w, (block v w).1 = none)
    (hlist : (E.git_tag_list_match s.world p).1 = GIT_OK) :
    rb_git_tag_collection_each_name E (.str p) (some block) s =
      (.ok .Qnil,
        ⟨(E.git_tag_list_match s.world p).2.foldl (fun w n => (block (.str n) w).2) s.world,
          s.log ++ [.tag_list_match p] ++
            (E.git_tag_list_match s.world p).2.map (fun n => .yield (.str n))⟩) ∧
    rb_git_tag_collection_each_name E .Qnil (some block) s =
      rb_git_tag_collection_each_name E (.str "") (some block) s ∧
    (n ∈ (spec_tag_list_match glob w "").2 ↔ ∃ id, ("refs/tags/" ++ n, id) ∈ w.refs) := by
  refine ⟨?_, rfl, mem_spec_tag_list_all glob w n⟩
  simp only [rb_git_tag_collection_each_name, each_tag, pattern_arg, Check_Type_String,
    Except.map, Option.getD, hlist, rugged_exception_check, GIT_OK, lt_self_iff_false,
    if_false, if_true]
  rw [each_name_loop_quiet block hblock]
  simp [St.emit]

/-- C9, at `tags.each_name("")` on the example repository with a block that
does nothing: the three tag names are yielded in lexical order. -/
theorem C9_each_name_yields_list_witness :
    rb_git_tag_collection_each_name exEngine (.str "") (some exQuietBlock) exSt =
      (.ok .Qnil,
        ⟨exRepo, [.tag_list_match "", .yield (.str "refs/tags/v9"), .yield (.str "v1"),
          .yield (.str "v3")]⟩) :=
  (C9_each_name_yields_list exEngine "" exQuietBlock exSt exGlob exRepo "v1"
    (fun _ _ => rfl) (by decide)).1

/-! ## `tags.each` -/

end Rugged
